import Mathlib

/-!
Verification of the Wikipedia pageview-analysis script (src/app.py).

The development shallowly embeds the three core functions of the script
(`extract_page_title`, `fetch_pageviews`, `analyze_wiki_pages`) as Lean
definitions and proves the specification claims about them.

Modelling decisions, stated once here:

* Strings are handled through their underlying character lists, so that every
  definition is structurally recursive and evaluable by `rfl` and `decide`.
* Calendar dates are encoded as the natural number `y * 10000 + m * 100 + d`
  (the YYYYMMDD form already used by the script and the upstream API); for
  valid dates this encoding is strictly monotone in the calendar order, so
  sorting by the encoding agrees with sorting by date.
* `urllib.parse.urlparse(url).path` is embedded as `urlPath` below, following
  the CPython algorithm (scheme strip, netloc strip, fragment strip, query
  strip, params strip) for ordinary URLs; the WHATWG control-character
  stripping applied by very recent CPython versions is not modelled, as no
  claim depends on it.
* `urllib.parse.unquote` is embedded at the byte level: each valid three
  character escape made of a percent sign and two hex digits decodes to the
  single character with that code, and invalid escapes pass through verbatim.
  Multi-byte UTF-8 escape sequences therefore decode to one character per
  byte rather than being recombined; no claim exercises non-ASCII escapes.
* The pandas DataFrame produced by the pipeline is embedded as a list of
  rows; floating point arithmetic in the share derivation is embedded as the
  exact arithmetic it computes on the script's value range (see
  `deriveShares`).
* Pseudo-random noise: `np.random.seed(42)` followed by two calls of
  `np.random.randint(0, 10, size=N)` is embedded by a stream
  `noise : Nat → Nat` representing the sequence of draws produced by the
  seeded generator, consumed positionally: draws `0..N-1` by the first call,
  draws `N..2N-1` by the second.  Reproducibility (same seed, same stream) is
  reflected by the stream being one fixed function per run.
* Network and HTTP are embedded by an oracle `net : String → HttpResponse`
  giving the response for the request the script builds for a page title, and
  an `HttpResponse` structure holding the status code and the decoded JSON
  body shape that the script actually touches (the "items" member and the
  "timestamp"/"views" members of its elements, each possibly missing).
  A Python exception escaping a function is embedded as `Except.error`.
-/

/-! ## Characters, percent-decoding and the article-path split -/

/-- Hexadecimal digit value of a character, as accepted by
`urllib.parse.unquote` (both cases). -/
def hexDigit (c : Char) : Option Nat :=
  if '0' ≤ c ∧ c ≤ '9' then some (c.toNat - 48)
  else if 'a' ≤ c ∧ c ≤ 'f' then some (c.toNat - 87)
  else if 'A' ≤ c ∧ c ≤ 'F' then some (c.toNat - 55)
  else none

/-- Fuel-driven worker for the embedding of `urllib.parse.unquote`: a percent
sign followed by two hex digits decodes to the character with that byte
value, anything else passes through unchanged.  The fuel is the length of
the input, which is enough because every step consumes at least one
character; the fuel-exhausted branch is unreachable for that fuel. -/
def unquoteF : Nat → List Char → List Char
  | 0, l => l
  | _ + 1, [] => []
  | fuel + 1, c :: rest =>
    if c = '%' then
      match rest with
      | a :: b :: rest2 =>
        match hexDigit a, hexDigit b with
        | some x, some y => Char.ofNat (16 * x + y) :: unquoteF fuel rest2
        | _, _ => c :: unquoteF fuel rest
      | _ => c :: unquoteF fuel rest
    else c :: unquoteF fuel rest

/-- Embedding of `urllib.parse.unquote` on character lists.  See the modelling
notes in the file header for the treatment of multi-byte escapes. -/
def unquoteL (l : List Char) : List Char := unquoteF l.length l

/-- Embedding of `urllib.parse.unquote` on strings. -/
def unquoteS (s : String) : String := String.mk (unquoteL s.data)

/-- The character list of the fixed article prefix `"/wiki/"` used by
`extract_page_title` (src/app.py line 29). -/
def wikiSepL : List Char := ['/', 'w', 'i', 'k', 'i', '/']

/-- Fuel-driven embedding of Python's `str.split("/wiki/")`: occurrences of
the separator are found left to right and non-overlapping.  The fuel is the
length of the list being split, which is enough because every step consumes
at least one character; the fuel-exhausted branch is unreachable for the
fuel chosen by `splitWiki` and is given a value that keeps the equations
uniform for proofs. -/
def splitWikiF : Nat → List Char → List Char → List (List Char)
  | 0, l, acc => [acc.reverse ++ l]
  | _ + 1, [], acc => [acc.reverse]
  | fuel + 1, c :: rest, acc =>
    if wikiSepL.isPrefixOf (c :: rest) then
      acc.reverse :: splitWikiF fuel (List.drop 5 rest) []
    else
      splitWikiF fuel rest (c :: acc)

/-- Embedding of `path.split("/wiki/")` (src/app.py line 30). -/
def splitWiki (l : List Char) : List (List Char) := splitWikiF l.length l []

/-- Embedding of `path.startswith("/wiki/")` (src/app.py line 29). -/
def startsWithWiki (l : List Char) : Bool := wikiSepL.isPrefixOf l

/-! ## Embedding of `urllib.parse.urlparse(url).path` -/

/-- Characters allowed in a URL scheme by `urllib.parse`: ASCII letters and
digits plus plus sign, hyphen and dot. -/
def isSchemeChar (c : Char) : Bool :=
  c.isAlphanum || c == '+' || c == '-' || c == '.'

/-- Scheme removal step of `urlsplit`: if the first colon is preceded by a
non-empty run of scheme characters starting with an ASCII letter, everything
up to and including the colon is removed. -/
def stripScheme (u : List Char) : List Char :=
  match u.findIdx? (fun c => c == ':') with
  | none => u
  | some i =>
    if 0 < i && (u.take i).all isSchemeChar && (u.headD ' ').isAlpha then
      u.drop (i + 1)
    else u

/-- Characters ending the network-location component in `urlsplit`. -/
def netlocDelim (c : Char) : Bool := c == '/' || c == '?' || c == '#'

/-- Netloc removal step of `urlsplit`: after a leading double slash, characters
up to the first slash, question mark or hash belong to the network location
and are removed. -/
def stripNetloc (u : List Char) : List Char :=
  match u with
  | '/' :: '/' :: rest => rest.dropWhile (fun c => !netlocDelim c)
  | _ => u

/-- Params removal step of `urlparse`: a semicolon in the last path segment
starts the params component, which is not part of `.path`. -/
def stripParams (p : List Char) : List Char :=
  if p.contains '/' then
    let lastSlash := p.length - 1 - ((p.reverse.findIdx? (fun c => c == '/')).getD 0)
    match (p.drop lastSlash).findIdx? (fun c => c == ';') with
    | some j => p.take (lastSlash + j)
    | none => p
  else
    match p.findIdx? (fun c => c == ';') with
    | some i => p.take i
    | none => p

/-- Embedding of `urllib.parse.urlparse(url).path` on character lists:
scheme, network location, fragment, query and params are removed in the
order CPython removes them. -/
def urlPath (u : List Char) : List Char :=
  stripParams
    (((stripNetloc (stripScheme u)).takeWhile (fun c => !(c == '#'))).takeWhile
      (fun c => !(c == '?')))

/-! ## Title extraction (src/app.py lines 21-33) -/

/-- Embedding of `extract_page_title` (src/app.py lines 21-33): parse the URL,
and if its path starts with `"/wiki/"` return the percent-decoded second
field of splitting the path on `"/wiki/"`, otherwise `none`.  Python indexes
the split result with `[1]`, which cannot fail when the prefix test
succeeded because the separator then occurs in the path; the embedding uses
`getD` with an arbitrary default for that unreachable failure. -/
def extract_page_title (url : String) : Option String :=
  let path := urlPath url.data
  if startsWithWiki path then
    some (String.mk (unquoteL ((splitWiki path).getD 1 [])))
  else
    none

/-! ## Dates (YYYYMMDD) -/

/-- Value of a decimal digit character, as used by `datetime.strptime`. -/
def digitVal (c : Char) : Option Nat :=
  if c.isDigit then some (c.toNat - 48) else none

/-- Leap-year rule of the proleptic Gregorian calendar used by
`datetime.date`. -/
def isLeapYear (y : Nat) : Bool :=
  (y % 4 == 0 && y % 100 != 0) || y % 400 == 0

/-- Number of days in a month, as validated by `datetime.date`. -/
def daysInMonth (y m : Nat) : Nat :=
  if m = 2 then (if isLeapYear y then 29 else 28)
  else if m = 4 ∨ m = 6 ∨ m = 9 ∨ m = 11 then 30
  else 31

/-- Embedding of `datetime.strptime(s, "%Y%m%d").date()` on an eight
character candidate (src/app.py line 58): four year digits, two month
digits, two day digits, validated against the calendar (Python's `datetime`
requires a year between 1 and 9999; four digits bound the year by 9999
already).  The result is the encoding `y * 10000 + m * 100 + d`.  Python's
`strptime` would additionally accept some shorter digit runs for `%Y`; the
script only ever passes the first eight characters of an API timestamp, and
no claim exercises that flexibility. -/
def parseYYYYMMDD (s : List Char) : Option Nat :=
  match s with
  | [y1, y2, y3, y4, m1, m2, d1, d2] =>
    match digitVal y1, digitVal y2, digitVal y3, digitVal y4,
          digitVal m1, digitVal m2, digitVal d1, digitVal d2 with
    | some a, some b, some c, some d, some e, some f, some g, some h =>
      let y := ((a * 10 + b) * 10 + c) * 10 + d
      let m := e * 10 + f
      let dd := g * 10 + h
      if 1 ≤ y ∧ 1 ≤ m ∧ m ≤ 12 ∧ 1 ≤ dd ∧ dd ≤ daysInMonth y m then
        some ((y * 100 + m) * 100 + dd)
      else none
    | _, _, _, _, _, _, _, _ => none
  | _ => none

/-! ## Pageview fetching (src/app.py lines 35-60) -/

/-- One element of the upstream response's `items` list, restricted to the
two members the script reads; a missing member models a JSON object without
that key (reading it raises `KeyError`). -/
structure RawItem where
  timestamp : Option String
  views : Option Nat
deriving DecidableEq, Repr

/-- An upstream HTTP response: the status code, and the `items` member of the
decoded JSON body (absent when the body has no such key; the script reads it
with `data.get("items", [])`). -/
structure HttpResponse where
  status : Nat
  items : Option (List RawItem)
deriving DecidableEq, Repr

/-- One row of the DataFrame built by `fetch_pageviews` (src/app.py
line 59): a calendar date (encoded YYYYMMDD) and a view count.  View
counts are the non-negative integers delivered by the upstream metrics
API. -/
structure PageviewRecord where
  date : Nat
  views : Nat
deriving DecidableEq, Repr

/-- Message printed by `fetch_pageviews` on a non-200 status (src/app.py
line 50). -/
def fetchErrMsg (title : String) (code : Nat) : String :=
  "Error fetching data for " ++ title ++ ": HTTP " ++ toString code

/-- Exception message for a missing `timestamp` key (src/app.py line 57). -/
def keyErrTimestamp : String := "KeyError: timestamp"

/-- Exception message for an unparseable timestamp (src/app.py line 58). -/
def valueErrStrptime : String := "ValueError: time data does not match format"

/-- Exception message for a missing `views` key (src/app.py line 59). -/
def keyErrViews : String := "KeyError: views"

/-- Embedding of the record-building loop of `fetch_pageviews` (src/app.py
lines 54-59): for each item read `timestamp`, parse its first eight
characters as a date, read `views`; a missing key or unparseable date is a
Python exception, embedded as `Except.error`. -/
def parseItems : List RawItem → Except String (List PageviewRecord)
  | [] => Except.ok []
  | it :: rest =>
    match it.timestamp with
    | none => Except.error keyErrTimestamp
    | some ts =>
      match parseYYYYMMDD (ts.data.take 8) with
      | none => Except.error valueErrStrptime
      | some d =>
        match it.views with
        | none => Except.error keyErrViews
        | some v => Except.map (fun rs => PageviewRecord.mk d v :: rs) (parseItems rest)

/-- Embedding of `fetch_pageviews` (src/app.py lines 35-60).  The URL
construction and `requests.get` call are embedded by taking the response for
the page title directly; the date-range arguments only shape the request
URL.  The result carries the list of messages printed (the non-200 report of
line 50) together with the returned records; an escaping exception is
`Except.error`. -/
def fetch_pageviews (title : String) (resp : HttpResponse) :
    Except String (List String × List PageviewRecord) :=
  if resp.status ≠ 200 then
    Except.ok ([fetchErrMsg title resp.status], [])
  else
    Except.map (fun rs => ([], rs)) (parseItems (resp.items.getD []))

/-! ## Merge and share derivation (src/app.py lines 83-96) -/

/-- One row of the merged table right after the outer join (src/app.py
line 88): the join key and the two views cells, each absent (pandas `NaN`)
when that page has no record for the date. -/
structure MergedRow where
  date : Nat
  v1 : Option Nat
  v2 : Option Nat
deriving DecidableEq, Repr

/-- One row of the table returned by `analyze_wiki_pages` (src/app.py
line 124): date, the two views columns and the two synthetic share columns.
All cells are present: reaching this point requires the `.astype(int)`
conversions of lines 93-96 to have succeeded, which fails on any absent
cell. -/
structure FinalRow where
  date : Nat
  v1 : Nat
  v2 : Nat
  s1 : Nat
  s2 : Nat
deriving DecidableEq, Repr

/-- Views cell of one input series for a join key: the first record carrying
the date, if any (fetched series have one record per date). -/
def lookupViews (rs : List PageviewRecord) (d : Nat) : Option Nat :=
  Option.map PageviewRecord.views (rs.find? (fun r => r.date == d))

/-- Join keys of the outer merge, sorted ascending: every date present in
either series, once (src/app.py line 88, `how="outer"` followed by
`.sort_values("date")`). -/
def mergedDates (r1 r2 : List PageviewRecord) : List Nat :=
  List.insertionSort (· ≤ ·)
    ((r1.map PageviewRecord.date ++ r2.map PageviewRecord.date).dedup)

/-- Embedding of the outer join plus sort of src/app.py line 88 for series
with pairwise distinct dates (the shape fetched series have: the upstream
per-day API yields one item per day).  Each join key becomes one row with
the views cells of both series, absent where a series lacks the date. -/
def mergeTables (r1 r2 : List PageviewRecord) : List MergedRow :=
  (mergedDates r1 r2).map (fun d => MergedRow.mk d (lookupViews r1 d) (lookupViews r2 d))

/-- Exception message of `.astype(int)` on a column containing an absent
cell (src/app.py lines 94 and 96). -/
def convertErrMsg : String := "ValueError: Cannot convert non-finite values (NA or inf) to integer"

/-- Share value of src/app.py lines 93-96: `int(v * 0.1 + n)` for a
view count `v` and a noise draw `n` in `[0, 10)`.  On the script's value
range this float expression equals `⌊v / 10⌋ + n` exactly, embedded as
natural division. -/
def shareOf (v n : Nat) : Nat := v / 10 + n

/-- Embedding of the share derivation (src/app.py lines 90-96): the
generator is reset (`np.random.seed(42)`), then the page-1 share column is
computed from the page-1 views column and draws `0..N-1` of the seeded
stream, then the page-2 share column from draws `N..2N-1`, where `N` is the
merged row count.  `.astype(int)` raises on a column with an absent cell,
embedded as `Except.error`; on success every cell is present and the final
table carries the plain values. -/
def deriveShares (noise : Nat → Nat) (rows : List MergedRow) :
    Except String (List FinalRow) :=
  if rows.all (fun r => r.v1.isSome) then
    if rows.all (fun r => r.v2.isSome) then
      Except.ok (rows.enum.map (fun p =>
        FinalRow.mk p.2.date (p.2.v1.getD 0) (p.2.v2.getD 0)
          (shareOf (p.2.v1.getD 0) (noise p.1))
          (shareOf (p.2.v2.getD 0) (noise (rows.length + p.1)))))
    else Except.error convertErrMsg
  else Except.error convertErrMsg

/-! ## The pipeline (src/app.py lines 62-124) -/

/-- How one invocation of `analyze_wiki_pages` ends: an escaping Python
exception, a `None` return, or a returned merged table. -/
inductive Outcome where
  | raised (msg : String)
  | noResult
  | result (rows : List FinalRow)
deriving DecidableEq, Repr

/-- Observable behaviour of one pipeline invocation: how it ended, which
page titles were fetched over the network (in order), and the messages it
printed. -/
structure PipelineRun where
  outcome : Outcome
  calls : List String
  messages : List String
deriving DecidableEq, Repr

/-- Message printed on the bad-input path (src/app.py line 72). -/
def badInputMsg : String := "Error: Could not extract page title from one or both URLs."

/-- Message printed on the no-data path (src/app.py line 80). -/
def noDataMsg : String := "No data available for one or both pages. Check your URLs or date range."

/-- Message printed before fetching (src/app.py line 75). -/
def fetchingMsgOf (t1 t2 : String) : String :=
  "Fetching data for '" ++ t1 ++ "' and '" ++ t2 ++ "' ..."

/-- Python truthiness of the extraction result as tested by
`if not page1_title or not page2_title` (src/app.py line 71): `None` and the
empty string are falsy. -/
def truthy : Option String → Bool
  | none => false
  | some s => s != ""

/-- Fetch-and-merge phase of `analyze_wiki_pages` (src/app.py lines 75-124),
after both titles passed the truthiness test: fetch page 1 then page 2
(sequentially), return `None` with a message if either series is empty,
otherwise outer-join, derive shares and return the table.  An exception
escaping a fetch or the share derivation aborts the invocation. -/
def analyzeFetch (t1 t2 : String) (net : String → HttpResponse) (noise : Nat → Nat) :
    PipelineRun :=
  match fetch_pageviews t1 (net t1) with
  | Except.error e => PipelineRun.mk (Outcome.raised e) [t1] [fetchingMsgOf t1 t2]
  | Except.ok (m1, df1) =>
    match fetch_pageviews t2 (net t2) with
    | Except.error e => PipelineRun.mk (Outcome.raised e) [t1, t2] ([fetchingMsgOf t1 t2] ++ m1)
    | Except.ok (m2, df2) =>
      if df1.isEmpty || df2.isEmpty then
        PipelineRun.mk Outcome.noResult [t1, t2]
          ([fetchingMsgOf t1 t2] ++ m1 ++ m2 ++ [noDataMsg])
      else
        match deriveShares noise (mergeTables df1 df2) with
        | Except.error e =>
          PipelineRun.mk (Outcome.raised e) [t1, t2] ([fetchingMsgOf t1 t2] ++ m1 ++ m2)
        | Except.ok rows =>
          PipelineRun.mk (Outcome.result rows) [t1, t2] ([fetchingMsgOf t1 t2] ++ m1 ++ m2)

/-- Embedding of `analyze_wiki_pages` (src/app.py lines 62-124): extract both
titles, fail early on a falsy one without touching the network, otherwise
run the fetch-and-merge phase.  `net` is the network oracle and `noise` the
seeded pseudo-random stream of the run (see the file header). -/
def analyze_wiki_pages (url1 url2 : String) (net : String → HttpResponse)
    (noise : Nat → Nat) : PipelineRun :=
  if !truthy (extract_page_title url1) || !truthy (extract_page_title url2) then
    PipelineRun.mk Outcome.noResult [] [badInputMsg]
  else
    analyzeFetch ((extract_page_title url1).getD "") ((extract_page_title url2).getD "")
      net noise

/-! ## Derived definitions used by the claim statements -/

/-- Whether the separator `"/wiki/"` occurs anywhere in a character list. -/
def containsWikiSep : List Char → Bool
  | [] => false
  | c :: rest => wikiSepL.isPrefixOf (c :: rest) || containsWikiSep rest

/-- The record that the fetch loop builds from one well-formed item: its
views value and the date parsed from the first eight characters of its
timestamp; `none` when the item is missing a key or its timestamp does not
parse. -/
def recordOfItem (it : RawItem) : Option PageviewRecord :=
  it.timestamp.bind (fun ts =>
    (parseYYYYMMDD (ts.data.take 8)).bind (fun d =>
      it.views.map (fun v => PageviewRecord.mk d v)))

/-- Records built from a list of items, skipping none (used only on lists
whose items are all well-formed, where it is the one-per-item mapping). -/
def parsedRecords (items : List RawItem) : List PageviewRecord :=
  items.filterMap recordOfItem

/-- The pointwise relation of claim C5 between an upstream item and a
returned record: same views value, and the record's date is the first eight
characters of the item's timestamp parsed as YYYYMMDD. -/
def itemMatches (it : RawItem) (r : PageviewRecord) : Prop :=
  it.views = some r.views ∧
  ∃ ts, it.timestamp = some ts ∧ parseYYYYMMDD (ts.data.take 8) = some r.date

/-- Whether an embedded computation ended in an escaping exception. -/
def isError {ε α : Type} : Except ε α → Bool
  | Except.error _ => true
  | Except.ok _ => false

/-! ## Helper lemmas: percent-decoding and the article-path split -/

/-- A step of `unquoteF` with non-zero fuel on a non-empty list always emits
at least one character. -/
lemma unquoteF_cons_ne_nil (fuel : Nat) (c : Char) (rest : List Char) :
    unquoteF (fuel + 1) (c :: rest) ≠ [] := by
  simp only [unquoteF]
  split
  · match rest with
    | [] => simp
    | [a] => simp
    | a :: b :: rest2 => cases h1 : hexDigit a <;> cases h2 : hexDigit b <;> simp [h1, h2]
  · simp

/-- Percent-decoding yields the empty string exactly on the empty string. -/
lemma unquoteL_eq_nil_iff (l : List Char) : unquoteL l = [] ↔ l = [] := by
  cases l with
  | nil => simp [unquoteL, unquoteF]
  | cons c rest =>
    simp only [unquoteL, List.length_cons]
    exact ⟨fun h => absurd h (unquoteF_cons_ne_nil rest.length c rest), fun h => by simp at h⟩

/-- With enough fuel, splitting a list in which the separator does not occur
yields the single field made of the accumulator and the list. -/
lemma splitWikiF_no_sep :
    ∀ (fuel : Nat) (l acc : List Char), l.length ≤ fuel → containsWikiSep l = false →
      splitWikiF fuel l acc = [acc.reverse ++ l]
  | 0, l, acc, _, _ => rfl
  | fuel + 1, [], acc, _, _ => by simp [splitWikiF]
  | fuel + 1, c :: rest, acc, hfuel, hsep => by
    simp only [containsWikiSep, Bool.or_eq_false_iff] at hsep
    simp only [splitWikiF, hsep.1, Bool.false_eq_true, if_false]
    rw [splitWikiF_no_sep fuel rest (c :: acc)
      (by simp only [List.length_cons] at hfuel; omega) hsep.2]
    simp

/-- The head field produced by `splitWikiF` always extends the reversed
accumulator. -/
lemma splitWikiF_head :
    ∀ (fuel : Nat) (l acc : List Char), ∃ t rs, splitWikiF fuel l acc = (acc.reverse ++ t) :: rs
  | 0, l, acc => ⟨l, [], rfl⟩
  | fuel + 1, [], acc => ⟨[], [], by simp [splitWikiF]⟩
  | fuel + 1, c :: rest, acc => by
    by_cases hp : wikiSepL.isPrefixOf (c :: rest) = true
    · exact ⟨[], splitWikiF fuel (List.drop 5 rest) [], by simp [splitWikiF, hp]⟩
    · obtain ⟨t, rs, ht⟩ := splitWikiF_head fuel rest (c :: acc)
      exact ⟨c :: t, rs, by simp only [splitWikiF, hp, Bool.false_eq_true, if_false]; simpa using ht⟩

/-- One step of `splitWikiF` on a list starting with the separator: close
the current field and continue after the separator. -/
lemma splitWikiF_sep_step (fuel : Nat) (rest acc : List Char) :
    splitWikiF (fuel + 1) ('/' :: 'w' :: 'i' :: 'k' :: 'i' :: '/' :: rest) acc =
      acc.reverse :: splitWikiF fuel rest [] := by
  have hpre : wikiSepL.isPrefixOf ('/' :: 'w' :: 'i' :: 'k' :: 'i' :: '/' :: rest) = true := by
    simp [wikiSepL, List.isPrefixOf]
  simp only [splitWikiF, hpre, if_true]
  rfl

/-- Splitting a path that starts with the separator: the first field is empty
and the rest of the split is the split of the remainder, with fuel to
spare. -/
lemma splitWiki_wikiSep_append (rest : List Char) :
    splitWiki (wikiSepL ++ rest) = [] :: splitWikiF (rest.length + 5) rest [] := by
  have hlen : (wikiSepL ++ rest).length = rest.length + 5 + 1 := by
    simp [wikiSepL]
  rw [splitWiki, hlen]
  show splitWikiF (rest.length + 5 + 1) ('/' :: 'w' :: 'i' :: 'k' :: 'i' :: '/' :: rest) [] = _
  rw [splitWikiF_sep_step]
  rfl

/-- When the separator does not occur in the remainder, the second field of
the split is exactly the remainder. -/
lemma splitWiki_getD1_no_sep (rest : List Char) (h : containsWikiSep rest = false) :
    (splitWiki (wikiSepL ++ rest)).getD 1 [] = rest := by
  rw [splitWiki_wikiSep_append,
    splitWikiF_no_sep (rest.length + 5) rest [] (by omega) h]
  rfl

/-- Emptiness of the second field of the split of a prefixed path: it is
empty exactly when the remainder is empty or itself starts with the
separator. -/
lemma splitWiki_getD1_eq_nil_iff (rest : List Char) :
    ((splitWiki (wikiSepL ++ rest)).getD 1 [] = []) ↔
      (rest = [] ∨ startsWithWiki rest = true) := by
  rw [splitWiki_wikiSep_append]
  cases rest with
  | nil => simp [splitWikiF]
  | cons c rest2 =>
    by_cases hp : wikiSepL.isPrefixOf (c :: rest2) = true
    · simp only [List.length_cons, splitWikiF, hp, if_true]
      simp [startsWithWiki, hp]
    · simp only [List.length_cons, splitWikiF, hp, Bool.false_eq_true, if_false]
      obtain ⟨t, rs, ht⟩ := splitWikiF_head (rest2.length + 5) rest2 [c]
      rw [ht]
      simp [startsWithWiki, hp]

/-- A list starting with the separator is the separator followed by its own
drop of six characters. -/
lemma eq_wikiSep_append_drop (l : List Char) (h : startsWithWiki l = true) :
    l = wikiSepL ++ l.drop 6 := by
  have hp : wikiSepL <+: l := by
    rw [startsWithWiki] at h
    exact List.isPrefixOf_iff_prefix.mp h
  obtain ⟨t, ht⟩ := hp
  have : l.drop 6 = t := by
    rw [← ht]
    exact List.drop_left wikiSepL t
  rw [this, ht]

/-! ## Claim C4 (corrected): title extraction -/

/-- C4 counterexample: the claim states that for a URL whose path begins with
`/wiki/` the extraction returns the percent-decoded remainder of the path
after that prefix.  For the URL below the remainder after the prefix is
`A/wiki/B` (whose percent-decoding is itself), yet the code returns `A`,
because `path.split("/wiki/")[1]` stops at the next occurrence of the
separator. -/
theorem extract_title_counterexample :
    extract_page_title "https://en.wikipedia.org/wiki/A/wiki/B" = some "A"
    ∧ urlPath "https://en.wikipedia.org/wiki/A/wiki/B".data = wikiSepL ++ "A/wiki/B".data
    ∧ unquoteS "A/wiki/B" = "A/wiki/B"
    ∧ ("A" : String) ≠ "A/wiki/B" := by
  refine ⟨by decide, by decide, by decide, by decide⟩

/-- C4 amended: for every URL string whose parsed path begins with `/wiki/`
and where `/wiki/` does not occur again after the prefix, title extraction
returns the percent-decoded remainder of the path after the prefix (when the
separator does occur again, the result is instead the percent-decoded
portion before that next occurrence); for every URL whose path does not
begin with the prefix it returns the absent value without raising. -/
theorem extract_title_amended (url : String) :
    (startsWithWiki (urlPath url.data) = false → extract_page_title url = none)
    ∧ (∀ rest : List Char, urlPath url.data = wikiSepL ++ rest →
        containsWikiSep rest = false →
        extract_page_title url = some (String.mk (unquoteL rest))) := by
  constructor
  · intro h
    simp [extract_page_title, h]
  · intro rest hpath hsep
    have hpre : startsWithWiki (urlPath url.data) = true := by
      rw [hpath, startsWithWiki]
      exact List.isPrefixOf_iff_prefix.mpr ⟨rest, rfl⟩
    simp only [extract_page_title, hpre, if_true]
    rw [hpath, splitWiki_getD1_no_sep rest hsep]

/-- C4 witness: the amended theorem applied to a URL with a percent-encoded
title; its hypotheses hold by evaluation and the extraction result is the
decoded remainder. -/
theorem extract_title_amended_witness :
    extract_page_title "https://en.wikipedia.org/wiki/Foo%20Bar" = some "Foo Bar" := by
  have h := (extract_title_amended "https://en.wikipedia.org/wiki/Foo%20Bar").2
    "Foo%20Bar".data (by decide) (by decide)
  exact h.trans (by decide)

/-! ## Claim C10 (corrected): extraction results and the empty string -/

/-- C10 counterexample: the claim states that a produced PageIdentifier is
always a non-empty string and that failure is never represented as an empty
string; but for the URL whose path is exactly `/wiki/` the code returns the
empty string (not the absent value). -/
theorem extract_title_empty_counterexample :
    extract_page_title "https://en.wikipedia.org/wiki/" = some ""
    ∧ (some ("" : String)) ≠ none := by
  refine ⟨by decide, by decide⟩

/-- C10 amended: extraction failure is represented as the absent value
exactly when the parsed path does not begin with `/wiki/`; a produced
PageIdentifier, however, can be the empty string — precisely when the path
after the prefix is empty or immediately starts with another `/wiki/` — and
is a non-empty string in every other case. -/
theorem extract_title_nonempty_amended (url : String) :
    (extract_page_title url = none ↔ startsWithWiki (urlPath url.data) = false)
    ∧ (∀ s, extract_page_title url = some s →
        (s = "" ↔ ((urlPath url.data).drop 6 = [] ∨
          startsWithWiki ((urlPath url.data).drop 6) = true))) := by
  constructor
  · cases h : startsWithWiki (urlPath url.data) with
    | true => simp [extract_page_title, h]
    | false => simp [extract_page_title, h]
  · intro s hs
    cases h : startsWithWiki (urlPath url.data) with
    | false => simp [extract_page_title, h] at hs
    | true =>
      simp only [extract_page_title, h, if_true, Option.some.injEq] at hs
      have hpath := eq_wikiSep_append_drop (urlPath url.data) h
      rw [hpath] at hs
      constructor
      · intro hempty
        rw [← hs] at hempty
        have : unquoteL ((splitWiki (wikiSepL ++ (urlPath url.data).drop 6)).getD 1 []) = [] := by
          have := congrArg String.data hempty
          simpa using this
        rw [unquoteL_eq_nil_iff] at this
        exact (splitWiki_getD1_eq_nil_iff _).mp this
      · intro hcase
        have hfield : (splitWiki (wikiSepL ++ (urlPath url.data).drop 6)).getD 1 [] = [] :=
          (splitWiki_getD1_eq_nil_iff _).mpr hcase
        rw [← hs, hfield]
        rfl

/-- C10 witness: the amended theorem applied to an ordinary article URL: the
extraction result is produced (not absent) and provably non-empty. -/
theorem extract_title_nonempty_amended_witness :
    extract_page_title "https://en.wikipedia.org/wiki/Cat" = some "Cat"
    ∧ ("Cat" : String) ≠ "" := by
  refine ⟨by decide, ?_⟩
  intro hc
  exact absurd
    (((extract_title_nonempty_amended "https://en.wikipedia.org/wiki/Cat").2 "Cat"
      (by decide)).mp hc)
    (by decide)

/-! ## Helper lemmas: the fetch loop -/

/-- On a list of well-formed items the fetch loop builds exactly the records
of `parsedRecords`, one per item in order, each related to its item by
`itemMatches`. -/
lemma parseItems_ok (items : List RawItem)
    (h : ∀ it ∈ items, (recordOfItem it).isSome) :
    parseItems items = Except.ok (parsedRecords items)
    ∧ List.Forall₂ itemMatches items (parsedRecords items) := by
  induction items with
  | nil => exact ⟨rfl, List.Forall₂.nil⟩
  | cons it rest ih =>
    have hit := h it (List.mem_cons_self it rest)
    obtain ⟨hrec, hall⟩ := ih (fun x hx => h x (List.mem_cons_of_mem it hx))
    cases hts : it.timestamp with
    | none => simp [recordOfItem, hts] at hit
    | some ts =>
      cases hd : parseYYYYMMDD (ts.data.take 8) with
      | none => simp [recordOfItem, hts, hd] at hit
      | some d =>
        cases hv : it.views with
        | none => simp [recordOfItem, hts, hd, hv] at hit
        | some v =>
          have hro : recordOfItem it = some (PageviewRecord.mk d v) := by
            simp [recordOfItem, hts, hd, hv]
          constructor
          · simp only [parseItems, hts, hd, hv, parsedRecords, List.filterMap_cons, hro]
            rw [show parsedRecords rest = List.filterMap recordOfItem rest from rfl] at hrec
            rw [hrec]
            rfl
          · rw [show parsedRecords (it :: rest) =
              PageviewRecord.mk d v :: parsedRecords rest by
                simp [parsedRecords, List.filterMap_cons, hro]]
            exact List.Forall₂.cons ⟨hv, ts, hts, hd⟩ hall

/-- If any item lacks its `timestamp` or `views` key, the fetch loop ends in
an exception. -/
lemma parseItems_error_of_missing (items : List RawItem)
    (h : ∃ it ∈ items, it.timestamp = none ∨ it.views = none) :
    isError (parseItems items) = true := by
  induction items with
  | nil => simp at h
  | cons it rest ih =>
    cases hts : it.timestamp with
    | none => simp [parseItems, hts, isError]
    | some ts =>
      cases hd : parseYYYYMMDD (ts.data.take 8) with
      | none => simp [parseItems, hts, hd, isError]
      | some d =>
        cases hv : it.views with
        | none => simp [parseItems, hts, hd, hv, isError]
        | some v =>
          have hrest : ∃ x ∈ rest, x.timestamp = none ∨ x.views = none := by
            obtain ⟨x, hx, hbad⟩ := h
            rcases List.mem_cons.mp hx with hx1 | hx2
            · subst hx1
              rcases hbad with hb | hb
              · rw [hts] at hb; exact absurd hb (by simp)
              · rw [hv] at hb; exact absurd hb (by simp)
            · exact ⟨x, hx2, hbad⟩
          have := ih hrest
          simp only [parseItems, hts, hd, hv]
          cases hp : parseItems rest with
          | error e => simp [Except.map, isError]
          | ok rs => rw [hp] at this; simp [isError] at this

/-! ## Claim C5 (confirmed): successful fetch -/

/-- C5: for every 200 response whose body carries an items list of
well-formed items, the fetcher returns (without printing) exactly one record
per item, in order, with the date parsed from the first eight characters of
the item's timestamp and the views copied from the item. -/
theorem fetch_pageviews_success (title : String) (resp : HttpResponse)
    (items : List RawItem) (hstatus : resp.status = 200)
    (hitems : resp.items = some items)
    (hvalid : ∀ it ∈ items, (recordOfItem it).isSome) :
    fetch_pageviews title resp = Except.ok ([], parsedRecords items)
    ∧ (parsedRecords items).length = items.length
    ∧ List.Forall₂ itemMatches items (parsedRecords items) := by
  obtain ⟨h1, h2⟩ := parseItems_ok items hvalid
  refine ⟨?_, (List.Forall₂.length_eq h2).symm, h2⟩
  simp [fetch_pageviews, hstatus, hitems, h1, Except.map]

/-- C5 witness: a 200 response with two items; the returned records carry the
parsed dates and the item views, in order. -/
theorem fetch_pageviews_success_witness :
    fetch_pageviews "Cat"
      (HttpResponse.mk 200 (some [RawItem.mk (some "2022010100") (some 25),
        RawItem.mk (some "2022010200") (some 34)])) =
      Except.ok ([], [PageviewRecord.mk 20220101 25, PageviewRecord.mk 20220102 34])
    ∧ (parsedRecords [RawItem.mk (some "2022010100") (some 25),
        RawItem.mk (some "2022010200") (some 34)]).length = 2 := by
  have h := fetch_pageviews_success "Cat"
    (HttpResponse.mk 200 (some [RawItem.mk (some "2022010100") (some 25),
      RawItem.mk (some "2022010200") (some 34)]))
    [RawItem.mk (some "2022010100") (some 25), RawItem.mk (some "2022010200") (some 34)]
    rfl rfl (by decide)
  exact ⟨h.1.trans (by rfl), by decide⟩

/-! ## Claim C6 (confirmed): non-success status -/

/-- C6: for every response with a non-200 status the fetcher prints a report
naming the page identifier and the status code, returns the empty record
list, and does not raise. -/
theorem fetch_pageviews_non200 (title : String) (resp : HttpResponse)
    (h : resp.status ≠ 200) :
    fetch_pageviews title resp =
      Except.ok (["Error fetching data for " ++ title ++ ": HTTP " ++ toString resp.status], []) := by
  simp [fetch_pageviews, h, fetchErrMsg]

/-- C6 witness: a 404 response yields the report message and no records. -/
theorem fetch_pageviews_non200_witness :
    fetch_pageviews "Cat" (HttpResponse.mk 404 none) =
      Except.ok (["Error fetching data for Cat: HTTP 404"], []) := by
  have h := fetch_pageviews_non200 "Cat" (HttpResponse.mk 404 none) (by decide)
  exact h.trans (by rfl)

/-! ## Claim C9 (corrected): malformed 200 responses -/

/-- C9 counterexample: the claim states that a 200 response with the `items`
list missing propagates uncaught to the caller; but the code reads the list
with `data.get("items", [])`, so such a response is handled silently and the
fetcher returns an empty record list without raising. -/
theorem fetch_missing_items_counterexample :
    fetch_pageviews "Cat" (HttpResponse.mk 200 none) = Except.ok ([], []) := rfl

/-- C9 amended: for a 200 response, a missing `items` list is handled via the
empty-list default and yields an empty sequence without an exception;
whereas an item inside a present `items` list that lacks the `timestamp` or
`views` field makes the failure propagate uncaught to the caller. -/
theorem fetch_malformed_amended (title : String) (resp : HttpResponse) :
    (resp.status = 200 → resp.items = none → fetch_pageviews title resp = Except.ok ([], []))
    ∧ (∀ items, resp.status = 200 → resp.items = some items →
        (∃ it ∈ items, it.timestamp = none ∨ it.views = none) →
        isError (fetch_pageviews title resp) = true) := by
  constructor
  · intro hstatus hitems
    simp [fetch_pageviews, hstatus, hitems, parseItems, Except.map]
  · intro items hstatus hitems hbad
    have herr := parseItems_error_of_missing items hbad
    simp only [fetch_pageviews, hstatus, ne_eq, not_true_eq_false, if_false, hitems,
      Option.getD_some]
    cases hp : parseItems items with
    | error e => simp [Except.map, isError]
    | ok rs => rw [hp] at herr; simp [isError] at herr

/-- C9 witness: an item without a timestamp raises, while a missing items
list is handled and returns the empty sequence. -/
theorem fetch_malformed_amended_witness :
    isError (fetch_pageviews "Cat"
      (HttpResponse.mk 200 (some [RawItem.mk none (some 3)]))) = true
    ∧ fetch_pageviews "Dog" (HttpResponse.mk 200 none) = Except.ok ([], []) := by
  constructor
  · exact (fetch_malformed_amended "Cat"
      (HttpResponse.mk 200 (some [RawItem.mk none (some 3)]))).2
      [RawItem.mk none (some 3)] rfl rfl ⟨RawItem.mk none (some 3), by decide, Or.inl rfl⟩
  · exact (fetch_malformed_amended "Dog" (HttpResponse.mk 200 none)).1 rfl rfl

/-! ## Helper lemmas: merge, share derivation and the pipeline -/

/-- A non-empty string is truthy in the script's `if not page1_title` test. -/
lemma truthy_some (s : String) (h : s ≠ "") : truthy (some s) = true := by
  simp [truthy, h]

/-- A non-empty list fails the pandas `.empty` test. -/
lemma isEmpty_false_of_ne_nil {α : Type} (l : List α) (h : l ≠ []) :
    l.isEmpty = false := by
  cases l with
  | nil => exact absurd rfl h
  | cons a t => rfl

/-- Membership in the merged join keys: exactly the dates of either input
series. -/
lemma mem_mergedDates (r1 r2 : List PageviewRecord) (d : Nat) :
    d ∈ mergedDates r1 r2 ↔
      (d ∈ r1.map PageviewRecord.date ∨ d ∈ r2.map PageviewRecord.date) := by
  rw [mergedDates, (List.perm_insertionSort (· ≤ ·) _).mem_iff, List.mem_dedup,
    List.mem_append]

/-- A views cell is absent exactly when the series has no record for the
date. -/
lemma lookupViews_eq_none (rs : List PageviewRecord) (d : Nat) :
    lookupViews rs d = none ↔ d ∉ rs.map PageviewRecord.date := by
  simp only [lookupViews, Option.map_eq_none', List.find?_eq_none, List.mem_map,
    beq_iff_eq]
  push_neg
  tauto

/-- A views cell is present exactly when the series has a record for the
date. -/
lemma lookupViews_isSome (rs : List PageviewRecord) (d : Nat) :
    (lookupViews rs d).isSome = true ↔ d ∈ rs.map PageviewRecord.date := by
  rw [Option.isSome_iff_ne_none, ne_eq, lookupViews_eq_none, not_not]

/-- The dates column of the merged table is the sorted key list. -/
lemma mergeTables_map_date (r1 r2 : List PageviewRecord) :
    (mergeTables r1 r2).map MergedRow.date = mergedDates r1 r2 := by
  rw [mergeTables, List.map_map]
  exact List.map_id _

/-- The share derivation raises when any merged row misses a views cell. -/
lemma deriveShares_error (noise : Nat → Nat) (rows : List MergedRow)
    (h : ∃ r ∈ rows, r.v1 = none ∨ r.v2 = none) :
    deriveShares noise rows = Except.error convertErrMsg := by
  obtain ⟨r, hr, hmiss⟩ := h
  rw [deriveShares]
  rcases hmiss with hm | hm
  · have h1 : rows.all (fun r => r.v1.isSome) = false := by
      rw [List.all_eq_false]
      exact ⟨r, hr, by simp [hm]⟩
    rw [h1]
    rfl
  · cases h1 : rows.all (fun r => r.v1.isSome) with
    | false => rfl
    | true =>
      have h2 : rows.all (fun r => r.v2.isSome) = false := by
        rw [List.all_eq_false]
        exact ⟨r, hr, by simp [hm]⟩
      rw [h2]
      rfl

/-- Inversion of a successful share derivation: every views cell was present
and the result is the indexed mapping over the merged rows. -/
lemma deriveShares_ok_inv (noise : Nat → Nat) (rows : List MergedRow)
    (frows : List FinalRow) (h : deriveShares noise rows = Except.ok frows) :
    (∀ r ∈ rows, r.v1.isSome = true) ∧ (∀ r ∈ rows, r.v2.isSome = true)
    ∧ frows = rows.enum.map (fun p =>
        FinalRow.mk p.2.date (p.2.v1.getD 0) (p.2.v2.getD 0)
          (shareOf (p.2.v1.getD 0) (noise p.1))
          (shareOf (p.2.v2.getD 0) (noise (rows.length + p.1)))) := by
  rw [deriveShares] at h
  cases h1 : rows.all (fun r => r.v1.isSome) with
  | false => rw [h1] at h; exact absurd h (by simp)
  | true =>
    rw [h1] at h
    cases h2 : rows.all (fun r => r.v2.isSome) with
    | false => rw [h2] at h; exact absurd h (by simp)
    | true =>
      rw [h2] at h
      refine ⟨List.all_eq_true.mp h1, List.all_eq_true.mp h2, ?_⟩
      exact (Except.ok.inj h).symm

/-- Unfolding of the pipeline on extractable, non-empty titles. -/
lemma analyze_unfold (url1 url2 : String) (net : String → HttpResponse)
    (noise : Nat → Nat) (t1 t2 : String)
    (ht1 : extract_page_title url1 = some t1) (ht1n : t1 ≠ "")
    (ht2 : extract_page_title url2 = some t2) (ht2n : t2 ≠ "") :
    analyze_wiki_pages url1 url2 net noise = analyzeFetch t1 t2 net noise := by
  rw [analyze_wiki_pages, ht1, ht2, truthy_some t1 ht1n, truthy_some t2 ht2n]
  rfl

/-- Unfolding of the fetch-and-merge phase on two successful, non-empty
fetches: the run is decided by the share derivation. -/
lemma analyzeFetch_unfold (t1 t2 : String) (net : String → HttpResponse)
    (noise : Nat → Nat) (m1 m2 : List String) (r1 r2 : List PageviewRecord)
    (hf1 : fetch_pageviews t1 (net t1) = Except.ok (m1, r1))
    (hf2 : fetch_pageviews t2 (net t2) = Except.ok (m2, r2))
    (hne1 : r1 ≠ []) (hne2 : r2 ≠ []) :
    analyzeFetch t1 t2 net noise =
      (match deriveShares noise (mergeTables r1 r2) with
        | Except.error e =>
          PipelineRun.mk (Outcome.raised e) [t1, t2] ([fetchingMsgOf t1 t2] ++ m1 ++ m2)
        | Except.ok rows =>
          PipelineRun.mk (Outcome.result rows) [t1, t2] ([fetchingMsgOf t1 t2] ++ m1 ++ m2)) := by
  simp only [analyzeFetch, hf1, hf2, isEmpty_false_of_ne_nil r1 hne1,
    isEmpty_false_of_ne_nil r2 hne2, Bool.or_self, if_false]
  rfl

/-! ## Claim C7 (confirmed): bad input -/

/-- C7: whenever title extraction yields the absent value for either URL, the
pipeline reports the bad-input condition, returns no result, and performs no
network call. -/
theorem analyze_bad_input (url1 url2 : String) (net : String → HttpResponse)
    (noise : Nat → Nat)
    (h : extract_page_title url1 = none ∨ extract_page_title url2 = none) :
    analyze_wiki_pages url1 url2 net noise =
      PipelineRun.mk Outcome.noResult [] [badInputMsg] := by
  rcases h with h | h
  · rw [analyze_wiki_pages, h]
    rfl
  · rw [analyze_wiki_pages, h]
    simp [truthy]

/-- C7 witness: a URL without the article prefix aborts the run with the
bad-input message, no fetches and no result. -/
theorem analyze_bad_input_witness :
    analyze_wiki_pages "https://example.com/page" "https://en.wikipedia.org/wiki/B"
      (fun _ => HttpResponse.mk 404 none) (fun _ => 0) =
      PipelineRun.mk Outcome.noResult [] [badInputMsg] :=
  analyze_bad_input "https://example.com/page" "https://en.wikipedia.org/wiki/B"
    (fun _ => HttpResponse.mk 404 none) (fun _ => 0) (Or.inl (by decide))

/-! ## Claim C8 (confirmed): no data -/

/-- C8: when both titles extract to truthy values and both fetches return,
but either record list is empty, the pipeline prints the no-data message
(distinct from the bad-input message) and returns no result, without
raising. -/
theorem analyze_no_data (url1 url2 : String) (net : String → HttpResponse)
    (noise : Nat → Nat) (t1 t2 : String) (m1 m2 : List String)
    (r1 r2 : List PageviewRecord)
    (ht1 : extract_page_title url1 = some t1) (ht1n : t1 ≠ "")
    (ht2 : extract_page_title url2 = some t2) (ht2n : t2 ≠ "")
    (hf1 : fetch_pageviews t1 (net t1) = Except.ok (m1, r1))
    (hf2 : fetch_pageviews t2 (net t2) = Except.ok (m2, r2))
    (hempty : r1 = [] ∨ r2 = []) :
    analyze_wiki_pages url1 url2 net noise =
      PipelineRun.mk Outcome.noResult [t1, t2]
        ([fetchingMsgOf t1 t2] ++ m1 ++ m2 ++ [noDataMsg])
    ∧ noDataMsg ≠ badInputMsg := by
  refine ⟨?_, by decide⟩
  rw [analyze_unfold url1 url2 net noise t1 t2 ht1 ht1n ht2 ht2n, analyzeFetch, hf1, hf2]
  rcases hempty with h | h
  · subst h
    rfl
  · subst h
    simp

/-- C8 witness: both fetches answer 404, so both series are empty and the run
ends with the no-data message and no result. -/
theorem analyze_no_data_witness :
    analyze_wiki_pages "https://en.wikipedia.org/wiki/A" "https://en.wikipedia.org/wiki/B"
      (fun _ => HttpResponse.mk 404 none) (fun _ => 0) =
      PipelineRun.mk Outcome.noResult ["A", "B"]
        ([fetchingMsgOf "A" "B"] ++ [fetchErrMsg "A" 404] ++ [fetchErrMsg "B" 404] ++ [noDataMsg])
    ∧ noDataMsg ≠ badInputMsg :=
  analyze_no_data "https://en.wikipedia.org/wiki/A" "https://en.wikipedia.org/wiki/B"
    (fun _ => HttpResponse.mk 404 none) (fun _ => 0) "A" "B"
    [fetchErrMsg "A" 404] [fetchErrMsg "B" 404] [] []
    (by decide) (by decide) (by decide) (by decide) rfl rfl (Or.inl rfl)

/-! ## Claim C2 (confirmed): the outer join -/

/-- C2: for every two non-empty record series with pairwise distinct dates
(the shape of fetched series), the merged table is their outer join keyed by
date: its date column is strictly sorted ascending, carries exactly the
dates present in either series (each once), and a views cell is absent
exactly on the rows whose date is missing from the corresponding series. -/
theorem merge_outer_join (r1 r2 : List PageviewRecord)
    (h1 : r1 ≠ []) (h2 : r2 ≠ [])
    (hnd1 : (r1.map PageviewRecord.date).Nodup)
    (hnd2 : (r2.map PageviewRecord.date).Nodup) :
    ((mergeTables r1 r2).map MergedRow.date).Sorted (· < ·)
    ∧ (∀ d, d ∈ (mergeTables r1 r2).map MergedRow.date ↔
        (d ∈ r1.map PageviewRecord.date ∨ d ∈ r2.map PageviewRecord.date))
    ∧ (∀ row ∈ mergeTables r1 r2,
        (row.v1 = none ↔ row.date ∉ r1.map PageviewRecord.date)
        ∧ (row.v2 = none ↔ row.date ∉ r2.map PageviewRecord.date)) := by
  have hsorted : (mergedDates r1 r2).Sorted (· ≤ ·) :=
    List.sorted_insertionSort (· ≤ ·) _
  have hnodup : (mergedDates r1 r2).Nodup :=
    ((List.perm_insertionSort (· ≤ ·) _).nodup_iff).mpr (List.nodup_dedup _)
  refine ⟨?_, ?_, ?_⟩
  · rw [mergeTables_map_date]
    exact (List.Pairwise.and hsorted hnodup).imp (fun h => lt_of_le_of_ne h.1 h.2)
  · intro d
    rw [mergeTables_map_date]
    exact mem_mergedDates r1 r2 d
  · intro row hrow
    obtain ⟨d, hd, hrow_eq⟩ := List.mem_map.mp hrow
    subst hrow_eq
    exact ⟨lookupViews_eq_none r1 d, lookupViews_eq_none r2 d⟩

/-- C2 witness: page A on dates D1 and D2, page B on dates D2 and D3: the
merged table has exactly three rows with strictly ascending dates, and the
absent cells sit exactly where a page lacks the date. -/
theorem merge_outer_join_witness :
    ((mergeTables [PageviewRecord.mk 20220101 5, PageviewRecord.mk 20220102 6]
      [PageviewRecord.mk 20220102 7, PageviewRecord.mk 20220103 8]).map
        MergedRow.date).Sorted (· < ·)
    ∧ mergeTables [PageviewRecord.mk 20220101 5, PageviewRecord.mk 20220102 6]
        [PageviewRecord.mk 20220102 7, PageviewRecord.mk 20220103 8] =
      [MergedRow.mk 20220101 (some 5) none,
       MergedRow.mk 20220102 (some 6) (some 7),
       MergedRow.mk 20220103 none (some 8)] := by
  have h := merge_outer_join
    [PageviewRecord.mk 20220101 5, PageviewRecord.mk 20220102 6]
    [PageviewRecord.mk 20220102 7, PageviewRecord.mk 20220103 8]
    (by decide) (by decide) (by decide) (by decide)
  exact ⟨h.1, by decide⟩

/-! ## Claim C3 (confirmed): the merged table is returned only on aligned dates -/

/-- C3: for every pair of non-empty fetched series with pairwise distinct
dates, if the date sets differ then the outer join leaves an absent views
cell and the integer conversion of the share derivation raises, so the run
aborts with that exception; consequently the pipeline returns a merged table
only when both series cover exactly the same set of dates. -/
theorem analyze_dates_alignment (url1 url2 : String) (net : String → HttpResponse)
    (noise : Nat → Nat) (t1 t2 : String) (m1 m2 : List String)
    (r1 r2 : List PageviewRecord)
    (ht1 : extract_page_title url1 = some t1) (ht1n : t1 ≠ "")
    (ht2 : extract_page_title url2 = some t2) (ht2n : t2 ≠ "")
    (hf1 : fetch_pageviews t1 (net t1) = Except.ok (m1, r1))
    (hf2 : fetch_pageviews t2 (net t2) = Except.ok (m2, r2))
    (hne1 : r1 ≠ []) (hne2 : r2 ≠ [])
    (hnd1 : (r1.map PageviewRecord.date).Nodup)
    (hnd2 : (r2.map PageviewRecord.date).Nodup) :
    (¬ (∀ d, d ∈ r1.map PageviewRecord.date ↔ d ∈ r2.map PageviewRecord.date) →
      (analyze_wiki_pages url1 url2 net noise).outcome = Outcome.raised convertErrMsg)
    ∧ (∀ rows, (analyze_wiki_pages url1 url2 net noise).outcome = Outcome.result rows →
      (∀ d, d ∈ r1.map PageviewRecord.date ↔ d ∈ r2.map PageviewRecord.date)) := by
  have hrun := analyze_unfold url1 url2 net noise t1 t2 ht1 ht1n ht2 ht2n
  have haf := analyzeFetch_unfold t1 t2 net noise m1 m2 r1 r2 hf1 hf2 hne1 hne2
  constructor
  · intro hne
    obtain ⟨d, hd⟩ := not_forall.mp hne
    have hmiss : ∃ r ∈ mergeTables r1 r2, r.v1 = none ∨ r.v2 = none := by
      by_cases hm1 : d ∈ r1.map PageviewRecord.date <;>
        by_cases hm2 : d ∈ r2.map PageviewRecord.date
      · exact absurd (iff_of_true hm1 hm2) hd
      · refine ⟨MergedRow.mk d (lookupViews r1 d) (lookupViews r2 d), ?_, ?_⟩
        · exact List.mem_map_of_mem _ ((mem_mergedDates r1 r2 d).mpr (Or.inl hm1))
        · exact Or.inr ((lookupViews_eq_none r2 d).mpr hm2)
      · refine ⟨MergedRow.mk d (lookupViews r1 d) (lookupViews r2 d), ?_, ?_⟩
        · exact List.mem_map_of_mem _ ((mem_mergedDates r1 r2 d).mpr (Or.inr hm2))
        · exact Or.inl ((lookupViews_eq_none r1 d).mpr hm1)
      · exact absurd (iff_of_false hm1 hm2) hd
    rw [hrun, haf, deriveShares_error noise (mergeTables r1 r2) hmiss]
  · intro rows hres d
    rw [hrun, haf] at hres
    cases hds : deriveShares noise (mergeTables r1 r2) with
    | error e => rw [hds] at hres; exact absurd hres (by simp)
    | ok frows =>
      obtain ⟨hall1, hall2, _⟩ := deriveShares_ok_inv noise (mergeTables r1 r2) frows hds
      constructor
      · intro hd1
        have hmem : MergedRow.mk d (lookupViews r1 d) (lookupViews r2 d) ∈ mergeTables r1 r2 :=
          List.mem_map_of_mem _ ((mem_mergedDates r1 r2 d).mpr (Or.inl hd1))
        exact (lookupViews_isSome r2 d).mp (hall2 _ hmem)
      · intro hd2
        have hmem : MergedRow.mk d (lookupViews r1 d) (lookupViews r2 d) ∈ mergeTables r1 r2 :=
          List.mem_map_of_mem _ ((mem_mergedDates r1 r2 d).mpr (Or.inr hd2))
        exact (lookupViews_isSome r1 d).mp (hall1 _ hmem)

/-- C3 witness: page A covers January 1-2, page B covers January 2-3; the
date sets differ, and the run ends in the integer-conversion exception. -/
theorem analyze_dates_alignment_witness :
    (analyze_wiki_pages "https://en.wikipedia.org/wiki/A" "https://en.wikipedia.org/wiki/B"
      (fun t => if t == "A" then
          HttpResponse.mk 200 (some [RawItem.mk (some "2022010100") (some 25),
            RawItem.mk (some "2022010200") (some 34)])
        else
          HttpResponse.mk 200 (some [RawItem.mk (some "2022010200") (some 7),
            RawItem.mk (some "2022010300") (some 8)]))
      (fun i => i % 10)).outcome = Outcome.raised convertErrMsg := by
  refine (analyze_dates_alignment "https://en.wikipedia.org/wiki/A"
    "https://en.wikipedia.org/wiki/B"
    (fun t => if t == "A" then
        HttpResponse.mk 200 (some [RawItem.mk (some "2022010100") (some 25),
          RawItem.mk (some "2022010200") (some 34)])
      else
        HttpResponse.mk 200 (some [RawItem.mk (some "2022010200") (some 7),
          RawItem.mk (some "2022010300") (some 8)]))
    (fun i => i % 10) "A" "B" [] []
    [PageviewRecord.mk 20220101 25, PageviewRecord.mk 20220102 34]
    [PageviewRecord.mk 20220102 7, PageviewRecord.mk 20220103 8]
    (by decide) (by decide) (by decide) (by decide) rfl rfl
    (by decide) (by decide) (by decide) (by decide)).1 ?_
  intro hall
  exact absurd ((hall 20220101).mp (by decide)) (by decide)

/-! ## Claim C1 (confirmed): the share formula -/

/-- C1: whenever the share derivation succeeds on a merged table (so every
views value is present), row `i` of the result carries share values equal to
the floor of one tenth of the corresponding views value plus the draw of the
seeded noise stream, page 1 consuming draws `0..N-1` positionally over the
rows and page 2 the subsequent draws `N..2N-1`, where `N` is the row
count. -/
theorem shares_formula (noise : Nat → Nat) (hnoise : ∀ i, noise i < 10)
    (r1 r2 : List PageviewRecord) (rows : List FinalRow)
    (hok : deriveShares noise (mergeTables r1 r2) = Except.ok rows) :
    ∀ i (hi : i < rows.length),
      (rows.get ⟨i, hi⟩).s1 = (rows.get ⟨i, hi⟩).v1 / 10 + noise i
      ∧ (rows.get ⟨i, hi⟩).s2 = (rows.get ⟨i, hi⟩).v2 / 10 + noise (rows.length + i) := by
  obtain ⟨hall1, hall2, hrows⟩ := deriveShares_ok_inv noise (mergeTables r1 r2) rows hok
  subst hrows
  intro i hi
  have hi2 : i < (mergeTables r1 r2).enum.length := by
    simpa using hi
  rw [List.get_eq_getElem, List.getElem_map, List.getElem_enum]
  refine ⟨rfl, ?_⟩
  simp [shareOf, List.enum_length]

/-- C1 witness: one merged row with both views present; the derivation
succeeds and the first row's page-1 share satisfies the formula with draw
number zero. -/
theorem shares_formula_witness :
    deriveShares (fun i => i % 10)
      (mergeTables [PageviewRecord.mk 20220101 25] [PageviewRecord.mk 20220101 37]) =
      Except.ok [FinalRow.mk 20220101 25 37 2 4]
    ∧ ([FinalRow.mk 20220101 25 37 2 4].get ⟨0, Nat.one_pos⟩).s1 =
        ([FinalRow.mk 20220101 25 37 2 4].get ⟨0, Nat.one_pos⟩).v1 / 10 + (fun i => i % 10) 0 := by
  refine ⟨rfl, ?_⟩
  exact (shares_formula (fun i => i % 10) (fun i => Nat.mod_lt i (by decide))
    [PageviewRecord.mk 20220101 25] [PageviewRecord.mk 20220101 37]
    [FinalRow.mk 20220101 25 37 2 4] rfl 0 Nat.one_pos).1
